import Mathlib

/-!
Verification development for the `deno-sandbox` repository.

The repository offers three variants of a temporary-directory sandbox:

* `sandbox.ts` (here `CwdVariant`): creates a temp directory, resolves it with
  `Deno.realPath`, records the current working directory as `origin`, and
  switches the process cwd into the sandbox.  Disposal switches the cwd back
  and then removes the tree, swallowing removal errors.
* an unnamed path-only module (here `PathVariant`): creates and resolves a
  temp directory, exposes `resolve(relativePath)` and removes the tree on
  disposal, swallowing all errors.
* an unnamed managed module (here `ManagedVariant`): a class wrapping one
  forwarding method per Deno filesystem primitive.  Its constructor stores
  `path.resolve(root)`, records the previous cwd and switches the cwd to the
  root; `resolve(...paths)` joins the segments, rejects absolute results and
  resolves against the root; `dispose()` restores the cwd, removes the tree
  (swallowed) and closes each tracked resource (each swallowed).

The filesystem is modelled as an explicit `World` (cwd, a list of path
entries, a log of primitive invocations, and open-resource bookkeeping);
the outcome of the fallible host primitives is driven by an `FsOracle`.
Path arithmetic (`path.join`, `path.resolve`, `path.normalize`,
`path.isAbsolute` of the Deno std posix implementation) is embedded as
structural functions over the slash-separated components.
-/

namespace SandboxSpec

/-! ## Posix path arithmetic (Deno std `path` module, posix flavour) -/

/-- `path.isAbsolute`: a posix path is absolute when it starts with `/`. -/
def isAbsolute (p : String) : Bool :=
  match p.data with
  | [] => false
  | c :: _ => c == '/'

/-- Split a character list at `/` separators (auxiliary, structural). -/
def splitSlashAux : List Char → List Char → List String
  | [], cur => [String.mk cur.reverse]
  | c :: rest, cur =>
    if c = '/' then String.mk cur.reverse :: splitSlashAux rest []
    else splitSlashAux rest (c :: cur)

/-- Split a path string at `/` separators. -/
def splitSlash (s : String) : List String :=
  splitSlashAux s.data []

/-- Join components with `/` separators (inverse of `splitSlash` on
components that contain no slash). -/
def joinSlash : List String → String
  | [] => ""
  | [s] => s
  | s :: rest => s ++ "/" ++ joinSlash rest

/-- Whether a path ends with a `/` (used by `path.normalize` to keep a
trailing separator). -/
def endsWithSlash (p : String) : Bool :=
  match p.data.getLast? with
  | some '/' => true
  | _ => false

/-- One step of `normalizeString` of the Deno std posix path module:
process a single component against the (reversed) accumulator, handling
empty components, `.` and `..`.  `allow` is `allowAboveRoot`. -/
def normStep (allow : Bool) (acc : List String) (s : String) : List String :=
  if s = "" then acc
  else if s = "." then acc
  else if s = ".." then
    match acc with
    | [] => if allow then [".."] else []
    | t :: rest => if t = ".." then s :: t :: rest else rest
  else s :: acc

/-- `normalizeString` of the Deno std posix path module: collapse empty,
`.` and `..` components of `p`. -/
def normalizeString (p : String) (allow : Bool) : String :=
  joinSlash (((splitSlash p).foldl (normStep allow) []).reverse)

/-- `path.normalize` (posix). -/
def pathNormalize (p : String) : String :=
  if p = "" then "."
  else
    let abs := isAbsolute p
    let trailing := endsWithSlash p
    let q := normalizeString p (!abs)
    let q := if q = "" && !abs then "." else q
    let q := if q != "" && trailing then q ++ "/" else q
    if abs then "/" ++ q else q

/-- `path.join` (posix): drop empty arguments, join with `/`, normalize. -/
def pathJoin (paths : List String) : String :=
  let joined := joinSlash (paths.filter (fun p => p != ""))
  if joined = "" then "." else pathNormalize joined

/-- Right-to-left accumulation loop of `path.resolve` (posix): the input
list is the argument list reversed; stop as soon as an absolute path has
been built. -/
def resolveGo : List String → String → Bool → String × Bool
  | [], acc, ab => (acc, ab)
  | p :: rest, acc, ab =>
    if ab then (acc, ab)
    else if p = "" then resolveGo rest acc ab
    else resolveGo rest (p ++ "/" ++ acc) (isAbsolute p)

/-- `path.resolve` (posix): resolve the argument list against `cwd`
(the process working directory is consulted only when no argument yields
an absolute path). -/
def pathResolve (cwd : String) (paths : List String) : String :=
  let st := resolveGo paths.reverse "" false
  let st := if st.2 then st else resolveGo [cwd] st.1 st.2
  let r := normalizeString st.1 (!st.2)
  if st.2 then "/" ++ r
  else if r = "" then "." else r

/-! ## Filesystem world and host-primitive oracle -/

/-- Classification of a filesystem entry (what `Deno.lstat` reports). -/
inductive Entry
  | file
  | dir
  | symlink (target : String)
deriving DecidableEq, Repr

/-- The filesystem world: the process working directory, the existing
entries (path, classification), a log of the host primitives that were
invoked, and open-resource bookkeeping for tracked file handles. -/
structure World where
  cwd : String
  fs : List (String × Entry)
  calls : List String
  nextRes : Nat
  openRes : List Nat
deriving DecidableEq, Repr

/-- Record the invocation of a host primitive. -/
def World.log (w : World) (c : String) : World :=
  { w with calls := w.calls ++ [c] }

/-- Look up the entry stored at path `p`. -/
def World.entry (w : World) (p : String) : Option Entry :=
  (w.fs.find? (fun e => e.1 == p)).map (fun e => e.2)

/-- Whether `pre` is a string-prefix of `s`. -/
def strStarts (s pre : String) : Bool :=
  pre.data.isPrefixOf s.data

/-- Recursive removal of the tree rooted at `p`: drop `p` itself and
everything below `p/`. -/
def World.removeTree (w : World) (p : String) : World :=
  { w with fs := w.fs.filter (fun e => !(e.1 == p || strStarts e.1 (p ++ "/"))) }

/-- Errors thrown by the modelled host primitives and by the sandbox. -/
inductive Err
  | chdirFailed (p : String)
  | removeFailed (p : String)
  | notFound (p : String)
  | makeTempFailed
  | pathEscape
  | opFailed (name : String)
  | closeFailed (r : Nat)
  | invalidLink (p : String)
deriving DecidableEq, Repr

/-- Outcome of an effectful call: a value or a thrown error, together with
the world as it stands when control returns (TypeScript exceptions do not
roll back filesystem effects). -/
inductive FsResult (α : Type)
  | ok (a : α) (w : World)
  | err (e : Err) (w : World)
deriving DecidableEq, Repr

/-- The world component of an outcome. -/
def FsResult.world {α : Type} : FsResult α → World
  | .ok _ w => w
  | .err _ w => w

/-- Whether the call returned normally. -/
def FsResult.isOk {α : Type} : FsResult α → Bool
  | .ok _ _ => true
  | .err _ _ => false

/-- The returned value, when the call returned normally. -/
def FsResult.valOf {α : Type} : FsResult α → Option α
  | .ok a _ => some a
  | .err _ _ => none

/-- The thrown error, when the call threw. -/
def FsResult.errOf {α : Type} : FsResult α → Option Err
  | .ok _ _ => none
  | .err e _ => some e

/-- Environment oracle fixing the outcome of each fallible host primitive
(success is not derivable from the world alone: permissions, races and
disk conditions are outside the model). -/
structure FsOracle where
  tempName : String
  makeTempOk : Bool
  chdirOk : String → Bool
  removeOk : String → Bool
  extOk : String → Bool
  closeOk : Nat → Bool

/-! ## Host primitives (`Deno.*`), shared by the async and sync variants:
on this sequential world model an awaited asynchronous primitive and its
synchronous twin have the same effect. -/

namespace Deno

/-- `Deno.cwd()`. -/
def cwd (w : World) : String := w.cwd

/-- `Deno.chdir(p)`: on success the process working directory becomes `p`. -/
def chdir (o : FsOracle) (p : String) (w : World) : FsResult Unit :=
  let w := w.log ("chdir:" ++ p)
  if o.chdirOk p then .ok () { w with cwd := p }
  else .err (.chdirFailed p) w

/-- `Deno.makeTempDir()` / `Deno.makeTempDirSync()`: allocate a fresh
directory (the oracle chooses its name). -/
def makeTempDir (o : FsOracle) (w : World) : FsResult String :=
  let w := w.log "makeTempDir"
  if o.makeTempOk then .ok o.tempName { w with fs := (o.tempName, Entry.dir) :: w.fs }
  else .err .makeTempFailed w

/-- `Deno.remove(p, { recursive: true })` / `Deno.removeSync`: fails with
`NotFound` when nothing exists at `p`; on success removes the whole tree. -/
def remove (o : FsOracle) (p : String) (w : World) : FsResult Unit :=
  let w := w.log ("remove:" ++ p)
  match w.entry p with
  | none => .err (.notFound p) w
  | some _ =>
    if o.removeOk p then .ok () (w.removeTree p)
    else .err (.removeFailed p) w

/-- Absolute-path components (empty components dropped). -/
def pathComps (p : String) : List String :=
  (splitSlash p).filter (fun s => s != "")

/-- Rebuild an absolute path from components. -/
def compsPath (cs : List String) : String :=
  "/" ++ joinSlash cs

/-- Component-wise canonicalization loop of `realpath`: walk the
components, following symlink entries (absolute targets restart from the
root, relative targets continue from the directory reached so far);
`fuel` bounds symlink chains. -/
def realPathGo (w : World) : Nat → List String → List String → Except Err (List String)
  | 0, _, _ => .error (.opFailed "realPathFuel")
  | _ + 1, done, [] => .ok done
  | fuel + 1, done, c :: rest =>
    let cur := done ++ [c]
    match w.entry (compsPath cur) with
    | none => .error (.notFound (compsPath cur))
    | some (.symlink t) =>
      if isAbsolute t then realPathGo w fuel [] (pathComps t ++ rest)
      else realPathGo w fuel done (pathComps t ++ rest)
    | some _ => realPathGo w fuel cur rest

/-- `Deno.realPath(p)` / `Deno.realPathSync(p)`: symlink-resolved
canonical absolute form of an absolute path `p`. -/
def realPath (p : String) (w : World) : FsResult String :=
  let w := w.log ("realPath:" ++ p)
  match realPathGo w 64 [] (pathComps p) with
  | .ok cs => .ok (compsPath cs) w
  | .error e => .err e w

/-- `Deno.create(p)`: creates the file and returns an open handle, which
the caller may track for closing. -/
def create (o : FsOracle) (p : String) (w : World) : FsResult Nat :=
  let w := w.log ("create:" ++ p)
  if o.extOk ("create:" ++ p) then
    .ok w.nextRes
      { w with fs := (p, Entry.file) :: w.fs,
               nextRes := w.nextRes + 1,
               openRes := w.openRes ++ [w.nextRes] }
  else .err (.opFailed ("create:" ++ p)) w

/-- `Deno.open(p, options)`: returns an open handle. -/
def fsOpen (o : FsOracle) (p : String) (w : World) : FsResult Nat :=
  let w := w.log ("open:" ++ p)
  if o.extOk ("open:" ++ p) then
    .ok w.nextRes { w with nextRes := w.nextRes + 1, openRes := w.openRes ++ [w.nextRes] }
  else .err (.opFailed ("open:" ++ p)) w

/-- `close()` on a tracked handle. -/
def close (o : FsOracle) (r : Nat) (w : World) : FsResult Unit :=
  let w := w.log "close"
  if o.closeOk r then .ok () { w with openRes := w.openRes.filter (fun x => x != r) }
  else .err (.closeFailed r) w

/-- `Deno.symlink(target, linkpath)`: stores the target string verbatim in
the new symlink entry. -/
def symlink (o : FsOracle) (target linkpath : String) (w : World) : FsResult Unit :=
  let w := w.log ("symlink:" ++ target ++ ":" ++ linkpath)
  if o.extOk ("symlink:" ++ linkpath) then
    .ok () { w with fs := (linkpath, Entry.symlink target) :: w.fs }
  else .err (.opFailed ("symlink:" ++ linkpath)) w

/-- `Deno.readLink(p)`: reads back the stored symlink target verbatim. -/
def readLink (p : String) (w : World) : FsResult String :=
  let w := w.log ("readLink:" ++ p)
  match w.entry p with
  | some (Entry.symlink t) => .ok t w
  | some _ => .err (.invalidLink p) w
  | none => .err (.notFound p) w

end Deno

/-- What `Deno.lstat` / `Deno.stat` report about an entry. -/
structure FileInfo where
  isFile : Bool
  isDirectory : Bool
  isSymlink : Bool
deriving DecidableEq, Repr

/-- Classification of an entry as a `FileInfo`. -/
def Entry.info : Entry → FileInfo
  | .file => ⟨true, false, false⟩
  | .dir => ⟨false, true, false⟩
  | .symlink _ => ⟨false, false, true⟩

namespace Deno

/-- `Deno.lstat(p)`: classify the entry at `p` without following it. -/
def lstat (p : String) (w : World) : FsResult FileInfo :=
  let w := w.log ("lstat:" ++ p)
  match w.entry p with
  | some e => .ok e.info w
  | none => .err (.notFound p) w

/-- `Deno.stat(p)`: classify the entry reached after symlink resolution. -/
def stat (p : String) (w : World) : FsResult FileInfo :=
  let w := w.log ("stat:" ++ p)
  match realPathGo w 64 [] (pathComps p) with
  | .error e => .err e w
  | .ok cs =>
    match w.entry (compsPath cs) with
    | some e => .ok e.info w
    | none => .err (.notFound (compsPath cs)) w

/-- `Deno.mkdir(p)`. -/
def mkdir (o : FsOracle) (p : String) (w : World) : FsResult Unit :=
  let w := w.log ("mkdir:" ++ p)
  if o.extOk ("mkdir:" ++ p) then .ok () { w with fs := (p, Entry.dir) :: w.fs }
  else .err (.opFailed ("mkdir:" ++ p)) w

/-- A host primitive whose payload the claims never inspect: it is logged
and succeeds or throws as the oracle dictates, leaving the entry list
unchanged (the actual mutation is outside the needed model). -/
def extCall (o : FsOracle) (name : String) (w : World) : FsResult Unit :=
  let w := w.log name
  if o.extOk name then .ok () w else .err (.opFailed name) w

/-- `std/fs` `exists(p)`: reports whether an entry exists; never throws. -/
def fsExists (p : String) (w : World) : FsResult Bool :=
  let w := w.log ("exists:" ++ p)
  .ok (w.entry p).isSome w

end Deno

/-! ## `sandbox.ts`: the cwd-switching variant (`CwdVariant`) -/

namespace CwdVariant

/-- The `Sandbox` record of `sandbox.ts`: the resolved temp-directory path
and the working directory in effect before construction. -/
structure Sandbox where
  path : String
  origin : String
deriving DecidableEq, Repr

/-- `sandbox()` of `sandbox.ts`:
`path = await Deno.realPath(await Deno.makeTempDir())`, `origin = Deno.cwd()`,
then `Deno.chdir(path)`; on `chdir` failure the catch block runs
`Deno.removeSync(path, { recursive: true })` and rethrows. -/
def sandbox (o : FsOracle) (w : World) : FsResult Sandbox :=
  match Deno.makeTempDir o w with
  | .err e w => .err e w
  | .ok tmp w =>
    match Deno.realPath tmp w with
    | .err e w => .err e w
    | .ok path w =>
      let origin := Deno.cwd w
      match Deno.chdir o path w with
      | .ok _ w => .ok { path := path, origin := origin } w
      | .err e w =>
        match Deno.remove o path w with
        | .ok _ w => .err e w
        | .err e2 w => .err e2 w

/-- `sandboxSync()` of `sandbox.ts`: same steps with the synchronous
primitives. -/
def sandboxSync (o : FsOracle) (w : World) : FsResult Sandbox :=
  match Deno.makeTempDir o w with
  | .err e w => .err e w
  | .ok tmp w =>
    match Deno.realPath tmp w with
    | .err e w => .err e w
    | .ok path w =>
      let origin := Deno.cwd w
      match Deno.chdir o path w with
      | .ok _ w => .ok { path := path, origin := origin } w
      | .err e w =>
        match Deno.remove o path w with
        | .ok _ w => .err e w
        | .err e2 w => .err e2 w

/-- The `Symbol.asyncDispose` closure of `sandbox()`:
`Deno.chdir(origin)` (not guarded), then `await Deno.remove(path,
{ recursive: true })` inside `try { } catch { }`. -/
def disposeAsync (o : FsOracle) (sb : Sandbox) (w : World) : FsResult Unit :=
  match Deno.chdir o sb.origin w with
  | .err e w => .err e w
  | .ok _ w =>
    match Deno.remove o sb.path w with
    | .ok _ w => .ok () w
    | .err _ w => .ok () w

/-- The `Symbol.dispose` closure of `sandboxSync()`: `Deno.chdir(origin)`
(not guarded), then `Deno.removeSync(path, { recursive: true })` inside
`try { } catch { }`. -/
def disposeSync (o : FsOracle) (sb : Sandbox) (w : World) : FsResult Unit :=
  match Deno.chdir o sb.origin w with
  | .err e w => .err e w
  | .ok _ w =>
    match Deno.remove o sb.path w with
    | .ok _ w => .ok () w
    | .err _ w => .ok () w

end CwdVariant

/-! ## The path-only variant (`PathVariant`) -/

namespace PathVariant

/-- The `Sandbox` record of the path-only module: only the resolved path;
`resolve` is a closure over it. -/
structure Sandbox where
  path : String
deriving DecidableEq, Repr

/-- The `resolve` closure: `resolve(path, relativePath)` of the std
`path` module, over the sandbox path.  `cwd` is the process working
directory `path.resolve` would consult (unused once the sandbox path is
absolute).  The source declares exactly one parameter `relativePath`. -/
def Sandbox.resolve (sb : Sandbox) (cwd : String) (relativePath : String) : String :=
  pathResolve cwd [sb.path, relativePath]

/-- A JavaScript call `sbox.resolve(s1, s2, ...)` against the one-parameter
closure: the declared parameter binds the first argument and the extra
arguments are dropped by the call semantics. -/
def resolveJsCall (sb : Sandbox) (cwd : String) (segs : List String) : String :=
  Sandbox.resolve sb cwd (segs.headD "")

/-- `sandbox()` of the path-only module:
`path = await Deno.realPath(await Deno.makeTempDir())`, no cwd change. -/
def sandbox (o : FsOracle) (w : World) : FsResult Sandbox :=
  match Deno.makeTempDir o w with
  | .err e w => .err e w
  | .ok tmp w =>
    match Deno.realPath tmp w with
    | .err e w => .err e w
    | .ok path w => .ok { path := path } w

/-- `sandboxSync()` of the path-only module. -/
def sandboxSync (o : FsOracle) (w : World) : FsResult Sandbox :=
  match Deno.makeTempDir o w with
  | .err e w => .err e w
  | .ok tmp w =>
    match Deno.realPath tmp w with
    | .err e w => .err e w
    | .ok path w => .ok { path := path } w

/-- The `Symbol.asyncDispose` closure of the path-only `sandbox()`:
`await Deno.remove(path, { recursive: true })` inside `try { } catch { }`. -/
def dispose (o : FsOracle) (sb : Sandbox) (w : World) : FsResult Unit :=
  match Deno.remove o sb.path w with
  | .ok _ w => .ok () w
  | .err _ w => .ok () w

/-- The `Symbol.dispose` closure of the path-only `sandboxSync()`. -/
def disposeSync (o : FsOracle) (sb : Sandbox) (w : World) : FsResult Unit :=
  match Deno.remove o sb.path w with
  | .ok _ w => .ok () w
  | .err _ w => .ok () w

end PathVariant

/-! ## The managed-facade variant (`ManagedVariant`)

The class `Sandbox` of the unnamed managed module: the constructor stores
`path.resolve(root)`, records `Deno.cwd()` as `#previousCwd`, starts an
empty `#resources` list and a `debug = false` flag, then runs
`Deno.chdir(this.root)` (a constructor throw propagates to the factory
caller).  Every forwarding method first runs `this.resolve(...)` on its
path arguments and then delegates to the corresponding `Deno` primitive.
-/

namespace ManagedVariant

/-- The managed `Sandbox` instance state. -/
structure Sandbox where
  root : String
  previousCwd : String
  resources : List Nat
  debug : Bool
deriving DecidableEq, Repr

/-- `new Sandbox(root)`:
`this.root = path.resolve(root); this.#previousCwd = Deno.cwd();
this.#resources = []; Deno.chdir(this.root)`. -/
def newSandbox (o : FsOracle) (root : String) (w : World) : FsResult Sandbox :=
  let rootR := pathResolve (Deno.cwd w) [root]
  let previousCwd := Deno.cwd w
  match Deno.chdir o rootR w with
  | .err e w => .err e w
  | .ok _ w =>
    .ok { root := rootR, previousCwd := previousCwd, resources := [], debug := false } w

/-- `sandbox(options)` of the managed module:
`const path = await Deno.makeTempDir(options); return new Sandbox(path)`. -/
def sandbox (o : FsOracle) (w : World) : FsResult Sandbox :=
  match Deno.makeTempDir o w with
  | .err e w => .err e w
  | .ok p w => newSandbox o p w

/-- `sandboxSync(options)` of the managed module. -/
def sandboxSync (o : FsOracle) (w : World) : FsResult Sandbox :=
  match Deno.makeTempDir o w with
  | .err e w => .err e w
  | .ok p w => newSandbox o p w

/-- `Sandbox.resolve(...paths)`:
`const p = path.join(...paths); if (path.isAbsolute(p)) throw ...;
return path.resolve(this.root, p)`.  Pure: no world interaction. -/
def Sandbox.resolve (sb : Sandbox) (paths : List String) (cwd : String) : Except Err String :=
  let p := pathJoin paths
  if isAbsolute p then .error Err.pathEscape
  else .ok (pathResolve cwd [sb.root, p])

/-- `Sandbox.exists(filePath)` (source name `exists`, a Lean keyword):
`fs.exists(this.resolve(filePath))`. -/
def Sandbox.existsP (sb : Sandbox) (filePath : String) (w : World) : FsResult Bool :=
  match sb.resolve [filePath] (Deno.cwd w) with
  | .error e => .err e w
  | .ok rp => Deno.fsExists rp w

/-- `Sandbox.chmod(path, mode)`. -/
def Sandbox.chmod (sb : Sandbox) (o : FsOracle) (p : String) (mode : Nat) (w : World) :
    FsResult Unit :=
  match sb.resolve [p] (Deno.cwd w) with
  | .error e => .err e w
  | .ok rp => Deno.extCall o ("chmod:" ++ rp ++ ":" ++ toString mode) w

/-- `Sandbox.chown(path, uid, gid)`. -/
def Sandbox.chown (sb : Sandbox) (o : FsOracle) (p : String) (uid gid : Nat) (w : World) :
    FsResult Unit :=
  match sb.resolve [p] (Deno.cwd w) with
  | .error e => .err e w
  | .ok rp => Deno.extCall o ("chown:" ++ rp ++ ":" ++ toString uid ++ ":" ++ toString gid) w

/-- `Sandbox.copyFile(fromPath, toPath)`: both arguments are resolved
(left to right, before `Deno.copyFile` runs). -/
def Sandbox.copyFile (sb : Sandbox) (o : FsOracle) (fromPath toPath : String) (w : World) :
    FsResult Unit :=
  match sb.resolve [fromPath] (Deno.cwd w) with
  | .error e => .err e w
  | .ok rf =>
    match sb.resolve [toPath] (Deno.cwd w) with
    | .error e => .err e w
    | .ok rt => Deno.extCall o ("copyFile:" ++ rf ++ ":" ++ rt) w

/-- `Sandbox.create(path)`: delegates to `Deno.create` and pushes the
returned handle onto `#resources`. -/
def Sandbox.create (sb : Sandbox) (o : FsOracle) (p : String) (w : World) :
    FsResult (Nat × Sandbox) :=
  match sb.resolve [p] (Deno.cwd w) with
  | .error e => .err e w
  | .ok rp =>
    match Deno.create o rp w with
    | .err e w => .err e w
    | .ok f w => .ok (f, { sb with resources := sb.resources ++ [f] }) w

/-- `Sandbox.link(oldpath, newpath)`. -/
def Sandbox.link (sb : Sandbox) (o : FsOracle) (oldpath newpath : String) (w : World) :
    FsResult Unit :=
  match sb.resolve [oldpath] (Deno.cwd w) with
  | .error e => .err e w
  | .ok ro =>
    match sb.resolve [newpath] (Deno.cwd w) with
    | .error e => .err e w
    | .ok rn => Deno.extCall o ("link:" ++ ro ++ ":" ++ rn) w

/-- `Sandbox.lstat(path)`. -/
def Sandbox.lstat (sb : Sandbox) (p : String) (w : World) : FsResult FileInfo :=
  match sb.resolve [p] (Deno.cwd w) with
  | .error e => .err e w
  | .ok rp => Deno.lstat rp w

/-- `Sandbox.mkdir(path, options)`. -/
def Sandbox.mkdir (sb : Sandbox) (o : FsOracle) (p : String) (w : World) : FsResult Unit :=
  match sb.resolve [p] (Deno.cwd w) with
  | .error e => .err e w
  | .ok rp => Deno.mkdir o rp w

/-- `Sandbox.open(path, options)` (source name `open`, a Lean keyword):
delegates to `Deno.open` and pushes the handle onto `#resources`. -/
def Sandbox.openF (sb : Sandbox) (o : FsOracle) (p : String) (w : World) :
    FsResult (Nat × Sandbox) :=
  match sb.resolve [p] (Deno.cwd w) with
  | .error e => .err e w
  | .ok rp =>
    match Deno.fsOpen o rp w with
    | .err e w => .err e w
    | .ok f w => .ok (f, { sb with resources := sb.resources ++ [f] }) w

/-- `Sandbox.readDir(path)`. -/
def Sandbox.readDir (sb : Sandbox) (o : FsOracle) (p : String) (w : World) : FsResult Unit :=
  match sb.resolve [p] (Deno.cwd w) with
  | .error e => .err e w
  | .ok rp => Deno.extCall o ("readDir:" ++ rp) w

/-- `Sandbox.readFile(path)`. -/
def Sandbox.readFile (sb : Sandbox) (o : FsOracle) (p : String) (w : World) : FsResult Unit :=
  match sb.resolve [p] (Deno.cwd w) with
  | .error e => .err e w
  | .ok rp => Deno.extCall o ("readFile:" ++ rp) w

/-- `Sandbox.readLink(path)`. -/
def Sandbox.readLink (sb : Sandbox) (p : String) (w : World) : FsResult String :=
  match sb.resolve [p] (Deno.cwd w) with
  | .error e => .err e w
  | .ok rp => Deno.readLink rp w

/-- `Sandbox.readTextFile(path)`. -/
def Sandbox.readTextFile (sb : Sandbox) (o : FsOracle) (p : String) (w : World) :
    FsResult Unit :=
  match sb.resolve [p] (Deno.cwd w) with
  | .error e => .err e w
  | .ok rp => Deno.extCall o ("readTextFile:" ++ rp) w

/-- `Sandbox.realPath(path)`. -/
def Sandbox.realPath (sb : Sandbox) (p : String) (w : World) : FsResult String :=
  match sb.resolve [p] (Deno.cwd w) with
  | .error e => .err e w
  | .ok rp => Deno.realPath rp w

/-- `Sandbox.remove(path, options)`. -/
def Sandbox.remove (sb : Sandbox) (o : FsOracle) (p : String) (w : World) : FsResult Unit :=
  match sb.resolve [p] (Deno.cwd w) with
  | .error e => .err e w
  | .ok rp => Deno.remove o rp w

/-- `Sandbox.rename(oldpath, newpath)`. -/
def Sandbox.rename (sb : Sandbox) (o : FsOracle) (oldpath newpath : String) (w : World) :
    FsResult Unit :=
  match sb.resolve [oldpath] (Deno.cwd w) with
  | .error e => .err e w
  | .ok ro =>
    match sb.resolve [newpath] (Deno.cwd w) with
    | .error e => .err e w
    | .ok rn => Deno.extCall o ("rename:" ++ ro ++ ":" ++ rn) w

/-- `Sandbox.stat(path)`. -/
def Sandbox.stat (sb : Sandbox) (p : String) (w : World) : FsResult FileInfo :=
  match sb.resolve [p] (Deno.cwd w) with
  | .error e => .err e w
  | .ok rp => Deno.stat rp w

/-- `Sandbox.symlink(oldpath, newpath, options)`:
`Deno.symlink(this.resolve(oldpath), this.resolve(newpath), options)` —
the stored link target is the sandbox-resolved `oldpath`. -/
def Sandbox.symlink (sb : Sandbox) (o : FsOracle) (oldpath newpath : String) (w : World) :
    FsResult Unit :=
  match sb.resolve [oldpath] (Deno.cwd w) with
  | .error e => .err e w
  | .ok ro =>
    match sb.resolve [newpath] (Deno.cwd w) with
    | .error e => .err e w
    | .ok rn => Deno.symlink o ro rn w

/-- `Sandbox.writeFile(path, data, options)` (`data` abstracted as bytes). -/
def Sandbox.writeFile (sb : Sandbox) (o : FsOracle) (p : String) (data : List Nat) (w : World) :
    FsResult Unit :=
  match sb.resolve [p] (Deno.cwd w) with
  | .error e => .err e w
  | .ok rp => Deno.extCall o ("writeFile:" ++ rp ++ ":" ++ toString data) w

/-- `Sandbox.writeTextFile(path, data, options)`. -/
def Sandbox.writeTextFile (sb : Sandbox) (o : FsOracle) (p : String) (data : String) (w : World) :
    FsResult Unit :=
  match sb.resolve [p] (Deno.cwd w) with
  | .error e => .err e w
  | .ok rp => Deno.extCall o ("writeTextFile:" ++ rp ++ ":" ++ data) w

/-- `Sandbox.dispose()`:
`Deno.chdir(this.#previousCwd)` (not guarded); then
`Deno.removeSync(this.root, { recursive: true })` inside `try { } catch`
(logged only when `debug`); then `this.#resources.forEach((r) => ...)`
closing each handle inside its own `try { } catch`. -/
def Sandbox.dispose (sb : Sandbox) (o : FsOracle) (w : World) : FsResult Unit :=
  match Deno.chdir o sb.previousCwd w with
  | .err e w => .err e w
  | .ok _ w =>
    let w :=
      match Deno.remove o sb.root w with
      | .ok _ w => w
      | .err _ w => w
    let w := sb.resources.foldl (fun w r =>
      match Deno.close o r w with
      | .ok _ w => w
      | .err _ w => w) w
    .ok () w

end ManagedVariant

/-! ## Concrete scenarios used by counterexamples and witnesses -/

/-- An environment in which every host primitive succeeds; the allocated
temp directory is `/tmp/s`. -/
def oAll : FsOracle :=
  ⟨"/tmp/s", true, fun _ => true, fun _ => true, fun _ => true, fun _ => true⟩

/-- An environment in which `Deno.chdir` always fails (directory became
inaccessible / permission race) while everything else succeeds. -/
def oNoChdir : FsOracle :=
  ⟨"/tmp/s", true, fun _ => false, fun _ => true, fun _ => true, fun _ => true⟩

/-- A starting world: working directory `/home`, with `/tmp` and `/home`
existing. -/
def w0 : World := ⟨"/home", [("/tmp", Entry.dir), ("/home", Entry.dir)], [], 0, []⟩

/-- A cwd-variant handle for `/tmp/s` created from `/home`. -/
def sbC : CwdVariant.Sandbox := ⟨"/tmp/s", "/home"⟩

/-- Environment with a symlinked temp root: `makeTempDir` hands out the
alias name `/tmp/x`. -/
def o6 : FsOracle :=
  ⟨"/tmp/x", true, fun _ => true, fun _ => true, fun _ => true, fun _ => true⟩

/-- World in which `/tmp` is a symlink to `/private/tmp` (the temp
directory's real location is `/private/tmp/x`, its alias `/tmp/x`). -/
def w6 : World :=
  ⟨"/home",
   [("/private", Entry.dir), ("/private/tmp", Entry.dir), ("/private/tmp/x", Entry.dir),
    ("/tmp", Entry.symlink "/private/tmp"), ("/home", Entry.dir)],
   [], 0, []⟩

/-- The managed handle produced by `ManagedVariant.sandbox oAll w0`. -/
def sb9 : ManagedVariant.Sandbox := ⟨"/tmp/s", "/home", [], false⟩

/-- The world right after that managed construction. -/
def w9a : World := (ManagedVariant.sandbox oAll w0).world

/-- The managed handle after `create("foo")` tracked resource `0`. -/
def sb9b : ManagedVariant.Sandbox := ⟨"/tmp/s", "/home", [0], false⟩

/-- The world after `create("foo")`. -/
def w9b : World := (ManagedVariant.Sandbox.create sb9 oAll "foo" w9a).world

/-- The world after `symlink("foo", "bar")`. -/
def w9c : World := (ManagedVariant.Sandbox.symlink sb9b oAll "foo" "bar" w9b).world

/-! ## Helper lemmas -/

/-- `realPathGo` depends on the world only through its entry list. -/
theorem realPathGo_fsEq (w w' : World) (h : w.fs = w'.fs) :
    ∀ fuel done rest, Deno.realPathGo w fuel done rest = Deno.realPathGo w' fuel done rest := by
  have hent : ∀ p, w.entry p = w'.entry p := by
    intro p; simp [World.entry, h]
  intro fuel
  induction fuel with
  | zero => intro _ _; rfl
  | succ n ih =>
    intro done rest
    cases rest with
    | nil => rfl
    | cons c cs =>
      simp only [Deno.realPathGo, hent]
      cases w'.entry (Deno.compsPath (done ++ [c])) with
      | none => rfl
      | some e =>
        cases e with
        | file => simp [ih]
        | dir => simp [ih]
        | symlink t =>
          by_cases hT : isAbsolute t = true <;> simp [hT, ih]

/-- A path starting with a slash is absolute. -/
theorem isAbsolute_slashAppend (q : String) : isAbsolute ("/" ++ q) = true := by
  cases q with
  | mk d => rfl

/-- Appending on the right preserves absoluteness. -/
theorem isAbsolute_append (p q : String) (h : isAbsolute p = true) :
    isAbsolute (p ++ q) = true := by
  cases p with
  | mk d =>
    cases q with
    | mk d2 =>
      cases d with
      | nil => simp [isAbsolute] at h
      | cons c cs => simpa [isAbsolute, String.append] using h

/-- An absolute path is not the empty string. -/
theorem isAbsolute_ne_empty (p : String) (h : isAbsolute p = true) : ¬(p = "") := by
  intro hp
  subst hp
  simp [isAbsolute] at h

/-- `path.normalize` of an absolute path is absolute. -/
theorem pathNormalize_abs (p : String) (h : isAbsolute p = true) :
    isAbsolute (pathNormalize p) = true := by
  have hne : ¬(p = "") := isAbsolute_ne_empty p h
  simp only [pathNormalize, hne, if_false, h]
  exact isAbsolute_slashAppend _

/-- `path.join` of a single absolute argument is absolute. -/
theorem pathJoin_single_abs (p : String) (h : isAbsolute p = true) :
    isAbsolute (pathJoin [p]) = true := by
  have hne : ¬(p = "") := isAbsolute_ne_empty p h
  have hb : (p != "") = true := by
    simp [bne, hne]
  simp only [pathJoin, List.filter, hb, joinSlash, hne, if_false]
  exact pathNormalize_abs p h

/-- The managed `resolve` rejects a single absolute path argument with
`PathEscapeError` (it never reaches any host primitive). -/
theorem resolve_single_abs (sb : ManagedVariant.Sandbox) (cwd p : String)
    (h : isAbsolute p = true) :
    ManagedVariant.Sandbox.resolve sb [p] cwd = .error Err.pathEscape := by
  simp only [ManagedVariant.Sandbox.resolve, pathJoin_single_abs p h, if_true]

/-- The managed `resolve` throws nothing but `PathEscapeError`. -/
theorem resolve_error_eq (sb : ManagedVariant.Sandbox) (cwd : String) (paths : List String)
    (e : Err) (h : ManagedVariant.Sandbox.resolve sb paths cwd = .error e) :
    e = Err.pathEscape := by
  unfold ManagedVariant.Sandbox.resolve at h
  by_cases hA : isAbsolute (pathJoin paths) = true
  · simp only [hA, if_true] at h
    cases h
    rfl
  · simp only [hA, if_false] at h
    cases h

/-- A successful `chdir` leaves the world with its argument as cwd. -/
theorem chdir_ok_cwd {o : FsOracle} {p : String} {w : World} {a : Unit} {w' : World}
    (h : Deno.chdir o p w = .ok a w') : w'.cwd = p := by
  unfold Deno.chdir at h
  split at h
  · cases h; rfl
  · cases h

/-- `chdir` that returns (either way) does not touch the entry list. -/
theorem chdir_world_fs (o : FsOracle) (p : String) (w : World) :
    ((Deno.chdir o p w).world).fs = w.fs := by
  unfold Deno.chdir
  split <;> rfl

/-- `remove` never changes the working directory. -/
theorem remove_world_cwd (o : FsOracle) (p : String) (w : World) :
    ((Deno.remove o p w).world).cwd = w.cwd := by
  simp only [Deno.remove]
  repeat' split
  all_goals rfl

/-- `makeTempDir` never changes the working directory. -/
theorem makeTempDir_world_cwd (o : FsOracle) (w : World) :
    ((Deno.makeTempDir o w).world).cwd = w.cwd := by
  unfold Deno.makeTempDir
  split <;> rfl

/-- `realPath` never changes the working directory. -/
theorem realPath_world_cwd (p : String) (w : World) :
    ((Deno.realPath p w).world).cwd = w.cwd := by
  simp only [Deno.realPath]
  repeat' split
  all_goals rfl

/-- Closing a tracked handle never changes the working directory. -/
theorem close_world_cwd (o : FsOracle) (r : Nat) (w : World) :
    ((Deno.close o r w).world).cwd = w.cwd := by
  unfold Deno.close
  split <;> rfl

/-- The resource-closing loop of the managed `dispose` never changes the
working directory. -/
theorem closeFold_cwd (o : FsOracle) (rs : List Nat) (w : World) :
    (rs.foldl (fun w r =>
      match Deno.close o r w with
      | .ok _ w => w
      | .err _ w => w) w).cwd = w.cwd := by
  induction rs generalizing w with
  | nil => rfl
  | cons r rest ih =>
    simp only [List.foldl]
    rw [ih]
    have := close_world_cwd o r w
    cases hc : Deno.close o r w with
    | ok a w2 => rw [hc] at this; exact this
    | err e w2 => rw [hc] at this; exact this

/-- The path-only async dispose always returns normally. -/
theorem pathDispose_isOk (o : FsOracle) (sb : PathVariant.Sandbox) (w : World) :
    (PathVariant.dispose o sb w).isOk = true := by
  unfold PathVariant.dispose
  cases Deno.remove o sb.path w <;> rfl

/-- The path-only sync dispose always returns normally. -/
theorem pathDisposeSync_isOk (o : FsOracle) (sb : PathVariant.Sandbox) (w : World) :
    (PathVariant.disposeSync o sb w).isOk = true := by
  unfold PathVariant.disposeSync
  cases Deno.remove o sb.path w <;> rfl

/-- The cwd-variant sync dispose returns normally exactly when the `chdir`
back to `origin` succeeds: removal failures are swallowed, the cwd-restore
failure is not. -/
theorem cwdDisposeSync_isOk_iff (o : FsOracle) (sb : CwdVariant.Sandbox) (w : World) :
    (CwdVariant.disposeSync o sb w).isOk = o.chdirOk sb.origin := by
  unfold CwdVariant.disposeSync Deno.chdir
  by_cases hc : o.chdirOk sb.origin = true
  · simp only [hc, if_true]
    cases Deno.remove o sb.path { (World.log w ("chdir:" ++ sb.origin)) with cwd := sb.origin } <;>
      rfl
  · have hf : o.chdirOk sb.origin = false := by simpa using hc
    simp [hf, FsResult.isOk]

/-- Same statement for the async dispose. -/
theorem cwdDisposeAsync_isOk_iff (o : FsOracle) (sb : CwdVariant.Sandbox) (w : World) :
    (CwdVariant.disposeAsync o sb w).isOk = o.chdirOk sb.origin := by
  unfold CwdVariant.disposeAsync Deno.chdir
  by_cases hc : o.chdirOk sb.origin = true
  · simp only [hc, if_true]
    cases Deno.remove o sb.path { (World.log w ("chdir:" ++ sb.origin)) with cwd := sb.origin } <;>
      rfl
  · have hf : o.chdirOk sb.origin = false := by simpa using hc
    simp [hf, FsResult.isOk]

/-- The managed `dispose` returns normally exactly when the `chdir` back
to the previous cwd succeeds: removal and close failures are swallowed. -/
theorem managedDispose_isOk_iff (o : FsOracle) (sb : ManagedVariant.Sandbox) (w : World) :
    (ManagedVariant.Sandbox.dispose sb o w).isOk = o.chdirOk sb.previousCwd := by
  unfold ManagedVariant.Sandbox.dispose Deno.chdir
  by_cases hc : o.chdirOk sb.previousCwd = true
  · simp only [hc, if_true]
    rfl
  · have hf : o.chdirOk sb.previousCwd = false := by simpa using hc
    simp [hf, FsResult.isOk]

/-- `makeTempDir` success yields the oracle's temp name and pushes a
directory entry, leaving cwd untouched. -/
theorem makeTempDir_ok_shape {o : FsOracle} {w : World} {t : String} {w1 : World}
    (h : Deno.makeTempDir o w = .ok t w1) :
    t = o.tempName ∧ w1.fs = (o.tempName, Entry.dir) :: w.fs ∧ w1.cwd = w.cwd := by
  unfold Deno.makeTempDir at h
  split at h
  · cases h
    exact ⟨rfl, rfl, rfl⟩
  · cases h

/-- `chdir` with a failing oracle throws the chdir error, leaving the
world (up to the log) unchanged. -/
theorem chdir_fail {o : FsOracle} {p : String} (h : o.chdirOk p = false) (w : World) :
    Deno.chdir o p w = .err (Err.chdirFailed p) (w.log ("chdir:" ++ p)) := by
  simp [Deno.chdir, h]

/-- `remove` on an existing entry with a succeeding oracle removes the
whole tree below it. -/
theorem remove_ok {o : FsOracle} {p : String} (hok : o.removeOk p = true) (w : World)
    (e : Entry) (hpres : w.entry p = some e) :
    Deno.remove o p w = .ok () ((w.log ("remove:" ++ p)).removeTree p) := by
  simp only [Deno.remove]
  rw [show (w.log ("remove:" ++ p)).entry p = some e from hpres]
  simp [hok]

/-- The tree-removal filter leaves nothing keyed by `p`. -/
theorem find?_filtered_none (l : List (String × Entry)) (p : String) :
    (l.filter fun e => !(e.1 == p || strStarts e.1 (p ++ "/"))).find?
      (fun e => e.1 == p) = none := by
  rw [List.find?_eq_none]
  intro x hx
  have hfilt := (List.mem_filter.mp hx).2
  simp only [Bool.not_eq_true', Bool.or_eq_false_iff] at hfilt
  simp [hfilt.1]

/-- After `removeTree p` no entry remains at `p`. -/
theorem entry_removeTree_self (w : World) (p : String) :
    (w.removeTree p).entry p = none := by
  simp only [World.removeTree, World.entry]
  simp [find?_filtered_none]
  intro a b _ h _
  exact h

/-- A `realPathGo` fixpoint certificate turns `realPath` into the
identity on `p` (up to logging). -/
theorem realPath_of_go (p : String) (w : World)
    (hgo : Deno.realPathGo ⟨"", w.fs, [], 0, []⟩ 64 [] (Deno.pathComps p)
            = Except.ok (Deno.pathComps p))
    (hnorm : Deno.compsPath (Deno.pathComps p) = p) :
    Deno.realPath p w = .ok p (w.log ("realPath:" ++ p)) := by
  simp only [Deno.realPath]
  rw [realPathGo_fsEq (w.log ("realPath:" ++ p)) ⟨"", w.fs, [], 0, []⟩ rfl]
  rw [hgo]
  simp [hnorm]

/-- Once the accumulated path is absolute, `resolveGo` ignores the
remaining arguments. -/
theorem resolveGo_absorbed (l : List String) (acc : String) :
    resolveGo l acc true = (acc, true) := by
  cases l with
  | nil => rfl
  | cons a as => simp [resolveGo]

/-- `path.resolve` with an absolute last argument ignores everything
before it. -/
theorem pathResolve_absLast (cwd : String) (l : List String) (p : String)
    (hp : isAbsolute p = true) :
    pathResolve cwd (l ++ [p]) = pathResolve cwd [p] := by
  have hne : ¬(p = "") := isAbsolute_ne_empty p hp
  have key : resolveGo ((l ++ [p]).reverse) "" false = resolveGo ([p].reverse) "" false := by
    rw [List.reverse_append]
    simp only [List.reverse_cons, List.reverse_nil, List.nil_append, List.singleton_append,
      List.cons_append]
    simp only [resolveGo, hne, if_false, hp, if_true]
    rw [resolveGo_absorbed]
  simp only [pathResolve, key]

/-- `path.resolve` of a single absolute argument is absolute. -/
theorem pathResolve_single_abs (cwd p : String) (hp : isAbsolute p = true) :
    isAbsolute (pathResolve cwd [p]) = true := by
  have hne : ¬(p = "") := isAbsolute_ne_empty p hp
  simp only [pathResolve, List.reverse_cons, List.reverse_nil, List.nil_append]
  simp only [resolveGo, hne, if_false, hp, if_true]
  exact isAbsolute_slashAppend _

/-- Successful cwd-variant construction: `origin` is the pre-construction
cwd, the resulting cwd is the sandbox path, and the path is the value the
`realPath` primitive returned for the allocated directory. -/
theorem cwdSandbox_ok_shape {o : FsOracle} {w : World} {sb : CwdVariant.Sandbox} {w1 : World}
    (h : CwdVariant.sandbox o w = .ok sb w1) :
    sb.origin = w.cwd ∧ w1.cwd = sb.path ∧
    (Deno.realPath o.tempName ((Deno.makeTempDir o w).world)).valOf = some sb.path := by
  unfold CwdVariant.sandbox at h
  cases hm : Deno.makeTempDir o w with
  | err e wa => rw [hm] at h; cases h
  | ok tmp wa =>
    rw [hm] at h
    dsimp only at h
    obtain ⟨htmp, _, hacwd⟩ := makeTempDir_ok_shape hm
    subst htmp
    cases hr : Deno.realPath o.tempName wa with
    | err e wb => rw [hr] at h; cases h
    | ok path wb =>
      rw [hr] at h
      dsimp only at h
      have hbcwd : wb.cwd = wa.cwd := by
        have := realPath_world_cwd o.tempName wa
        rw [hr] at this
        exact this
      cases hcd : Deno.chdir o path wb with
      | ok a wc =>
        rw [hcd] at h
        dsimp only at h
        cases h
        refine ⟨?_, chdir_ok_cwd hcd, ?_⟩
        · show wb.cwd = w.cwd
          rw [hbcwd, hacwd]
        · dsimp only [FsResult.world]
          rw [hr]
          rfl
      | err e wc =>
        rw [hcd] at h
        dsimp only at h
        cases hrm : Deno.remove o path wc with
        | ok a wd => rw [hrm] at h; cases h
        | err e2 wd => rw [hrm] at h; cases h

/-- Same statement for the synchronous factory. -/
theorem cwdSandboxSync_ok_shape {o : FsOracle} {w : World} {sb : CwdVariant.Sandbox}
    {w1 : World} (h : CwdVariant.sandboxSync o w = .ok sb w1) :
    sb.origin = w.cwd ∧ w1.cwd = sb.path ∧
    (Deno.realPath o.tempName ((Deno.makeTempDir o w).world)).valOf = some sb.path := by
  have hsame : CwdVariant.sandboxSync o w = CwdVariant.sandbox o w := rfl
  rw [hsame] at h
  exact cwdSandbox_ok_shape h

/-- A completing cwd-variant async dispose leaves the cwd at `origin`. -/
theorem cwdDisposeAsync_ok_cwd {o : FsOracle} {sb : CwdVariant.Sandbox} {w w3 : World}
    (h : CwdVariant.disposeAsync o sb w = .ok () w3) : w3.cwd = sb.origin := by
  unfold CwdVariant.disposeAsync at h
  cases hc : Deno.chdir o sb.origin w with
  | err e wc => rw [hc] at h; cases h
  | ok a wc =>
    rw [hc] at h
    dsimp only at h
    cases hr : Deno.remove o sb.path wc with
    | ok b wd =>
      rw [hr] at h
      cases h
      have hwd : w3.cwd = wc.cwd := by
        have := remove_world_cwd o sb.path wc
        rw [hr] at this
        exact this
      rw [hwd]
      exact chdir_ok_cwd hc
    | err e wd =>
      rw [hr] at h
      cases h
      have hwd : w3.cwd = wc.cwd := by
        have := remove_world_cwd o sb.path wc
        rw [hr] at this
        exact this
      rw [hwd]
      exact chdir_ok_cwd hc

/-- A completing cwd-variant sync dispose leaves the cwd at `origin`. -/
theorem cwdDisposeSync_ok_cwd {o : FsOracle} {sb : CwdVariant.Sandbox} {w w3 : World}
    (h : CwdVariant.disposeSync o sb w = .ok () w3) : w3.cwd = sb.origin := by
  have hsame : CwdVariant.disposeSync o sb w = CwdVariant.disposeAsync o sb w := rfl
  rw [hsame] at h
  exact cwdDisposeAsync_ok_cwd h

/-- Successful managed construction: the root is `path.resolve` of the
allocated temp directory (no symlink resolution), the previous cwd is
recorded, and the cwd is switched to the root. -/
theorem managedSandbox_ok_shape {o : FsOracle} {w : World} {sb : ManagedVariant.Sandbox}
    {w1 : World} (h : ManagedVariant.sandbox o w = .ok sb w1) :
    sb.root = pathResolve w.cwd [o.tempName] ∧ sb.previousCwd = w.cwd ∧
    w1.cwd = sb.root := by
  unfold ManagedVariant.sandbox ManagedVariant.newSandbox at h
  cases hm : Deno.makeTempDir o w with
  | err e wa => rw [hm] at h; cases h
  | ok tmp wa =>
    rw [hm] at h
    dsimp only at h
    obtain ⟨htmp, _, hacwd⟩ := makeTempDir_ok_shape hm
    subst htmp
    cases hcd : Deno.chdir o (pathResolve (Deno.cwd wa) [o.tempName]) wa with
    | err e wc => rw [hcd] at h; cases h
    | ok a wc =>
      rw [hcd] at h
      dsimp only at h
      cases h
      refine ⟨?_, ?_, ?_⟩
      · show pathResolve wa.cwd [o.tempName] = pathResolve w.cwd [o.tempName]
        rw [hacwd]
      · exact hacwd
      · have := chdir_ok_cwd hcd
        rw [this]

/-- A completing managed dispose leaves the cwd at the recorded previous
cwd. -/
theorem managedDispose_ok_cwd {o : FsOracle} {sb : ManagedVariant.Sandbox} {w w3 : World}
    (h : ManagedVariant.Sandbox.dispose sb o w = .ok () w3) : w3.cwd = sb.previousCwd := by
  unfold ManagedVariant.Sandbox.dispose at h
  cases hc : Deno.chdir o sb.previousCwd w with
  | err e wc => rw [hc] at h; cases h
  | ok a wc =>
    rw [hc] at h
    dsimp only at h
    cases h
    rw [closeFold_cwd]
    have hmid : (match Deno.remove o sb.root wc with
        | .ok _ w => w
        | .err _ w => w) = (Deno.remove o sb.root wc).world := by
      cases Deno.remove o sb.root wc <;> rfl
    rw [hmid, remove_world_cwd]
    exact chdir_ok_cwd hc

/-- The path-only construction never changes the cwd, whatever the
outcome. -/
theorem pathSandbox_world_cwd (o : FsOracle) (w : World) :
    ((PathVariant.sandbox o w).world).cwd = w.cwd := by
  unfold PathVariant.sandbox
  cases hm : Deno.makeTempDir o w with
  | err e wa =>
    have := makeTempDir_world_cwd o w
    rw [hm] at this
    exact this
  | ok tmp wa =>
    dsimp only
    have h1 : wa.cwd = w.cwd := by
      have := makeTempDir_world_cwd o w
      rw [hm] at this
      exact this
    cases hr : Deno.realPath tmp wa with
    | err e wb =>
      have := realPath_world_cwd tmp wa
      rw [hr] at this
      exact this.trans h1
    | ok path wb =>
      have := realPath_world_cwd tmp wa
      rw [hr] at this
      exact this.trans h1

/-- Same for the synchronous factory. -/
theorem pathSandboxSync_world_cwd (o : FsOracle) (w : World) :
    ((PathVariant.sandboxSync o w).world).cwd = w.cwd := by
  have hsame : PathVariant.sandboxSync o w = PathVariant.sandbox o w := rfl
  rw [hsame]
  exact pathSandbox_world_cwd o w

/-- The path-only disposers never change the cwd. -/
theorem pathDispose_world_cwd (o : FsOracle) (sb : PathVariant.Sandbox) (w : World) :
    ((PathVariant.dispose o sb w).world).cwd = w.cwd ∧
    ((PathVariant.disposeSync o sb w).world).cwd = w.cwd := by
  constructor
  · unfold PathVariant.dispose
    cases hr : Deno.remove o sb.path w with
    | ok a wd =>
      have := remove_world_cwd o sb.path w
      rw [hr] at this
      exact this
    | err e wd =>
      have := remove_world_cwd o sb.path w
      rw [hr] at this
      exact this
  · unfold PathVariant.disposeSync
    cases hr : Deno.remove o sb.path w with
    | ok a wd =>
      have := remove_world_cwd o sb.path w
      rw [hr] at this
      exact this
    | err e wd =>
      have := remove_world_cwd o sb.path w
      rw [hr] at this
      exact this

/-! ## Claim theorems -/

/-- C1 (counterexample): teardown failure is NOT always swallowed.  In an
environment where `Deno.chdir` fails (here: after a successful
construction, restoring the cwd to `/home` fails), the cwd-variant
disposer of `sandbox.ts` throws the `chdir` error to its caller: the
`Deno.chdir(origin)` call is outside the `try` block. -/
theorem c1_counterexample :
    (CwdVariant.disposeSync oNoChdir sbC ((CwdVariant.sandboxSync oAll w0).world)).isOk
      = false ∧
    (CwdVariant.disposeSync oNoChdir sbC ((CwdVariant.sandboxSync oAll w0).world)).errOf
      = some (Err.chdirFailed "/home") := by
  constructor
  · rfl
  · rfl

/-- C1 (amended): during disposal, failures of the directory removal and
of the per-resource close calls are swallowed for every variant — the
path-only disposers never throw at all, and the cwd-restoring disposers
return normally precisely when the `chdir` back to the original directory
succeeds; a cwd-restore failure propagates. -/
theorem c1_teardown_swallowing (o : FsOracle) (w : World) :
    (∀ sb : PathVariant.Sandbox,
      (PathVariant.dispose o sb w).isOk = true ∧
      (PathVariant.disposeSync o sb w).isOk = true) ∧
    (∀ sb : CwdVariant.Sandbox,
      (CwdVariant.disposeAsync o sb w).isOk = o.chdirOk sb.origin ∧
      (CwdVariant.disposeSync o sb w).isOk = o.chdirOk sb.origin) ∧
    (∀ sb : ManagedVariant.Sandbox,
      (ManagedVariant.Sandbox.dispose sb o w).isOk = o.chdirOk sb.previousCwd) := by
  refine ⟨fun sb => ⟨pathDispose_isOk o sb w, pathDisposeSync_isOk o sb w⟩,
          fun sb => ⟨cwdDisposeAsync_isOk_iff o sb w, cwdDisposeSync_isOk_iff o sb w⟩,
          fun sb => managedDispose_isOk_iff o sb w⟩

/-- C1 (witness for the amended theorem): with every primitive succeeding,
the cwd-variant disposer returns normally, and in an environment where the
removal fails it still returns normally. -/
theorem c1_teardown_swallowing_witness :
    (CwdVariant.disposeSync oAll sbC w0).isOk = oAll.chdirOk sbC.origin ∧
    (PathVariant.dispose oAll ⟨"/tmp/s"⟩ w0).isOk = true :=
  ⟨((c1_teardown_swallowing oAll w0).2.1 sbC).2,
   ((c1_teardown_swallowing oAll w0).1 ⟨"/tmp/s"⟩).1⟩

/-- C4 (counterexample): the managed variant DOES change the process-wide
working directory during construction: starting from `/home`, a successful
`sandbox()` leaves the cwd at the sandbox root `/tmp/s`.  (Its own test
suite asserts exactly this behaviour.) -/
theorem c4_counterexample :
    (ManagedVariant.sandbox oAll w0).isOk = true ∧
    ((ManagedVariant.sandbox oAll w0).world).cwd = "/tmp/s" ∧
    w0.cwd = "/home" ∧
    ((ManagedVariant.sandbox oAll w0).world).cwd ≠ w0.cwd := by
  refine ⟨rfl, rfl, rfl, ?_⟩
  decide

/-- C5 (code bug, evaluation at the failing input): the path-only module
declares `resolve` with a single parameter, so the repository's own
multiple-argument test call `sbox.resolve("foo", "bar", "baz.txt")` drops
the extra segments and yields `root/foo`, whereas joining the root with
`foo/bar/baz.txt` (what the test and the claim require, and what the
managed variant's `resolve` computes) yields `root/foo/bar/baz.txt`. -/
theorem c5_resolve_dropped_segments :
    PathVariant.resolveJsCall ⟨"/tmp/s"⟩ "/home" ["foo", "bar", "baz.txt"] = "/tmp/s/foo" ∧
    pathResolve "/home" ["/tmp/s", pathJoin ["foo", "bar", "baz.txt"]]
      = "/tmp/s/foo/bar/baz.txt" ∧
    ManagedVariant.Sandbox.resolve sb9 ["foo", "bar", "baz.txt"] "/home"
      = .ok "/tmp/s/foo/bar/baz.txt" ∧
    ("/tmp/s/foo" : String) ≠ "/tmp/s/foo/bar/baz.txt" := by
  refine ⟨rfl, rfl, rfl, ?_⟩
  decide

/-- C6 (counterexample): with a symlinked temp root
(`/tmp` → `/private/tmp`), the managed variant stores the unresolved alias
`/tmp/x` as `root`, although the canonical symlink-resolved form of the
allocated directory is `/private/tmp/x` (which is what the cwd variant
stores as `path`). -/
theorem c6_counterexample :
    ((ManagedVariant.sandbox o6 w6).valOf).map ManagedVariant.Sandbox.root
      = some "/tmp/x" ∧
    (Deno.realPath "/tmp/x" ((ManagedVariant.sandbox o6 w6).world)).valOf
      = some "/private/tmp/x" ∧
    ((CwdVariant.sandboxSync o6 w6).valOf).map CwdVariant.Sandbox.path
      = some "/private/tmp/x" ∧
    ("/tmp/x" : String) ≠ "/private/tmp/x" := by
  refine ⟨rfl, rfl, rfl, ?_⟩
  decide

/-- C9 (counterexample): in the managed sandbox rooted at `/tmp/s`, after
`create("foo")` and `symlink("foo", "bar")`, reading the link of `bar`
returns the absolute resolved path `/tmp/s/foo` — not the relative string
`"foo"` claimed — because `Sandbox.symlink` resolves its `oldpath`
argument against the root before calling `Deno.symlink`. -/
theorem c9_counterexample :
    ManagedVariant.sandbox oAll w0 = .ok sb9 w9a ∧
    ManagedVariant.Sandbox.create sb9 oAll "foo" w9a = .ok (0, sb9b) w9b ∧
    (ManagedVariant.Sandbox.symlink sb9b oAll "foo" "bar" w9b).isOk = true ∧
    (ManagedVariant.Sandbox.readLink sb9b "bar" w9c).valOf = some "/tmp/s/foo" ∧
    some ("/tmp/s/foo" : String) ≠ some ("foo" : String) := by
  refine ⟨rfl, rfl, rfl, rfl, ?_⟩
  decide

/-- C9 (amended): in that scenario `bar` is classified as a symlink, its
link target reads back as the absolute sandbox-resolved path
`/tmp/s/foo` (root joined with `foo`), and the canonical resolved path of
`bar` equals the canonical resolved path of `foo` (both `/tmp/s/foo`). -/
theorem c9_symlink_scenario :
    (ManagedVariant.Sandbox.lstat sb9b "bar" w9c).valOf
      = some ⟨false, false, true⟩ ∧
    (ManagedVariant.Sandbox.readLink sb9b "bar" w9c).valOf
      = some (sb9b.root ++ "/foo") ∧
    (ManagedVariant.Sandbox.realPath sb9b "bar" w9c).valOf
      = (ManagedVariant.Sandbox.realPath sb9b "foo" w9c).valOf ∧
    (ManagedVariant.Sandbox.realPath sb9b "bar" w9c).valOf
      = some "/tmp/s/foo" := by
  refine ⟨rfl, rfl, rfl, rfl⟩

/-- C10 (counterexample): for the absolute but non-normalized argument
`/a//b`, the path-only `resolve` returns the normalized `/a/b`, not the
argument itself. -/
theorem c10_counterexample :
    PathVariant.Sandbox.resolve ⟨"/tmp/s"⟩ "/home" "/a//b" = "/a/b" ∧
    ("/a/b" : String) ≠ "/a//b" := by
  refine ⟨rfl, ?_⟩
  decide

/-- C2: if, after a successful temp-directory allocation and resolution,
the `chdir` into the sandbox fails, the cwd-variant construction
synchronously removes the freshly allocated directory and rethrows the
original `chdir` error: the result is that error, the final world has no
entry at the temp path (and no entry below it), and the working directory
is unchanged.  The async factory runs the identical sequence. -/
theorem c2_rollback (o : FsOracle) (w : World)
    (hmk : o.makeTempOk = true)
    (hnorm : Deno.compsPath (Deno.pathComps o.tempName) = o.tempName)
    (hrp : Deno.realPathGo ⟨"", (o.tempName, Entry.dir) :: w.fs, [], 0, []⟩ 64 []
             (Deno.pathComps o.tempName) = Except.ok (Deno.pathComps o.tempName))
    (hcd : o.chdirOk o.tempName = false)
    (hrm : o.removeOk o.tempName = true) :
    (CwdVariant.sandboxSync o w).errOf = some (Err.chdirFailed o.tempName) ∧
    ((CwdVariant.sandboxSync o w).world).entry o.tempName = none ∧
    ((CwdVariant.sandboxSync o w).world).fs
      = w.fs.filter (fun e => !(e.1 == o.tempName || strStarts e.1 (o.tempName ++ "/"))) ∧
    ((CwdVariant.sandboxSync o w).world).cwd = w.cwd ∧
    CwdVariant.sandbox o w = CwdVariant.sandboxSync o w := by
  have hm : Deno.makeTempDir o w = .ok o.tempName
      { w with fs := (o.tempName, Entry.dir) :: w.fs, calls := w.calls ++ ["makeTempDir"] } := by
    simp [Deno.makeTempDir, World.log, hmk]
  have hr : Deno.realPath o.tempName
        { w with fs := (o.tempName, Entry.dir) :: w.fs, calls := w.calls ++ ["makeTempDir"] }
      = .ok o.tempName
        ({ w with fs := (o.tempName, Entry.dir) :: w.fs,
                  calls := w.calls ++ ["makeTempDir"] }.log ("realPath:" ++ o.tempName)) :=
    realPath_of_go o.tempName _ hrp hnorm
  have hent : ∀ (wx : World), wx.fs = (o.tempName, Entry.dir) :: w.fs →
      wx.entry o.tempName = some Entry.dir := by
    intro wx hfs
    have hfind : (((o.tempName, Entry.dir)) :: w.fs).find? (fun e => e.1 == o.tempName)
        = some (o.tempName, Entry.dir) := List.find?_cons_of_pos _ (by simp)
    simp [World.entry, hfs, hfind]
  have hall : CwdVariant.sandboxSync o w = .err (Err.chdirFailed o.tempName)
      { cwd := w.cwd,
        fs := w.fs.filter (fun e => !(e.1 == o.tempName || strStarts e.1 (o.tempName ++ "/"))),
        calls := w.calls ++ ["makeTempDir", "realPath:" ++ o.tempName,
                             "chdir:" ++ o.tempName, "remove:" ++ o.tempName],
        nextRes := w.nextRes, openRes := w.openRes } := by
    unfold CwdVariant.sandboxSync
    rw [hm]
    dsimp only
    rw [hr]
    dsimp only
    rw [chdir_fail hcd]
    dsimp only
    rw [remove_ok hrm _ Entry.dir (hent _ rfl)]
    simp [World.log, World.removeTree, List.filter_cons, List.append_assoc]
  refine ⟨?_, ?_, ?_, ?_, rfl⟩
  · rw [hall]
    rfl
  · rw [hall]
    simp [FsResult.world, World.entry, find?_filtered_none]
    intro a b _ h _
    exact h
  · rw [hall]
    rfl
  · rw [hall]
    rfl

/-- C2 (witness): in the environment where `chdir` always fails, the
synchronous construction from `/home` rethrows the `chdir` error for the
allocated `/tmp/s` and leaves no entry at `/tmp/s`. -/
theorem c2_rollback_witness :
    (CwdVariant.sandboxSync oNoChdir w0).errOf = some (Err.chdirFailed "/tmp/s") ∧
    ((CwdVariant.sandboxSync oNoChdir w0).world).entry "/tmp/s" = none := by
  have h := c2_rollback oNoChdir w0 rfl rfl rfl rfl rfl
  exact ⟨h.1, h.2.1⟩

/-- C3: for the cwd-switching variant, a successful construction records
the pre-construction cwd as `origin` and leaves the cwd at the sandbox
`path`; a completing teardown leaves the cwd at `origin`.  (The embedding
is sequential: the sandbox performs no cwd mutation between the factory's
return and the disposer's invocation.) -/
theorem c3_cwd_lifecycle :
    (∀ (o : FsOracle) (w : World) (sb : CwdVariant.Sandbox) (w1 : World),
        CwdVariant.sandbox o w = .ok sb w1 →
        sb.origin = w.cwd ∧ w1.cwd = sb.path ∧
        ∀ (o2 : FsOracle) (w2 w3 : World),
          CwdVariant.disposeAsync o2 sb w2 = .ok () w3 → w3.cwd = sb.origin) ∧
    (∀ (o : FsOracle) (w : World) (sb : CwdVariant.Sandbox) (w1 : World),
        CwdVariant.sandboxSync o w = .ok sb w1 →
        sb.origin = w.cwd ∧ w1.cwd = sb.path ∧
        ∀ (o2 : FsOracle) (w2 w3 : World),
          CwdVariant.disposeSync o2 sb w2 = .ok () w3 → w3.cwd = sb.origin) := by
  constructor
  · intro o w sb w1 h
    obtain ⟨h1, h2, _⟩ := cwdSandbox_ok_shape h
    exact ⟨h1, h2, fun o2 w2 w3 hd => cwdDisposeAsync_ok_cwd hd⟩
  · intro o w sb w1 h
    obtain ⟨h1, h2, _⟩ := cwdSandboxSync_ok_shape h
    exact ⟨h1, h2, fun o2 w2 w3 hd => cwdDisposeSync_ok_cwd hd⟩

/-- C3 (witness): the all-succeeding scenario from `/home`: after
construction the cwd is the sandbox path, and after disposal it is back
at the origin. -/
theorem c3_cwd_lifecycle_witness :
    sbC.origin = w0.cwd ∧
    ((CwdVariant.sandbox oAll w0).world).cwd = sbC.path ∧
    ((CwdVariant.disposeAsync oAll sbC ((CwdVariant.sandbox oAll w0).world)).world).cwd
      = sbC.origin := by
  have h := c3_cwd_lifecycle.1 oAll w0 sbC ((CwdVariant.sandbox oAll w0).world) rfl
  exact ⟨h.1, h.2.1,
    h.2.2 oAll ((CwdVariant.sandbox oAll w0).world)
      ((CwdVariant.disposeAsync oAll sbC ((CwdVariant.sandbox oAll w0).world)).world) rfl⟩

/-- C4 (amended): the path-only variant's construction and teardown never
change the process working directory (whatever the outcome); the managed
variant's construction switches the cwd to the sandbox root after
recording the previous cwd, and its completing teardown restores that
previous cwd — so only for the path-only variant is the cwd untouched by
each individual operation, while for the managed variant it is restored
only after a full construction-plus-teardown pair. -/
theorem c4_cwd_effects :
    (∀ (o : FsOracle) (w : World),
        ((PathVariant.sandbox o w).world).cwd = w.cwd ∧
        ((PathVariant.sandboxSync o w).world).cwd = w.cwd) ∧
    (∀ (o : FsOracle) (sb : PathVariant.Sandbox) (w : World),
        ((PathVariant.dispose o sb w).world).cwd = w.cwd ∧
        ((PathVariant.disposeSync o sb w).world).cwd = w.cwd) ∧
    (∀ (o : FsOracle) (w : World) (sb : ManagedVariant.Sandbox) (w1 : World),
        ManagedVariant.sandbox o w = .ok sb w1 →
        w1.cwd = sb.root ∧ sb.previousCwd = w.cwd) ∧
    (∀ (o : FsOracle) (sb : ManagedVariant.Sandbox) (w2 w3 : World),
        ManagedVariant.Sandbox.dispose sb o w2 = .ok () w3 →
        w3.cwd = sb.previousCwd) := by
  refine ⟨fun o w => ⟨pathSandbox_world_cwd o w, pathSandboxSync_world_cwd o w⟩,
          fun o sb w => pathDispose_world_cwd o sb w,
          fun o w sb w1 h => ?_,
          fun o sb w2 w3 h => managedDispose_ok_cwd h⟩
  obtain ⟨_, h2, h3⟩ := managedSandbox_ok_shape h
  exact ⟨h3, h2⟩

/-- C4 (witness): the concrete all-succeeding managed construction from
`/home` switches the cwd to its root and records `/home`. -/
theorem c4_cwd_effects_witness :
    ((ManagedVariant.sandbox oAll w0).world).cwd = sb9.root ∧
    sb9.previousCwd = w0.cwd :=
  c4_cwd_effects.2.2.1 oAll w0 sb9 ((ManagedVariant.sandbox oAll w0).world) rfl

/-- A successful path-only construction stores the value the `realPath`
primitive returned for the allocated directory. -/
theorem pathSandbox_ok_shape {o : FsOracle} {w : World} {sb : PathVariant.Sandbox}
    {w1 : World} (h : PathVariant.sandbox o w = .ok sb w1) :
    (Deno.realPath o.tempName ((Deno.makeTempDir o w).world)).valOf = some sb.path := by
  unfold PathVariant.sandbox at h
  cases hm : Deno.makeTempDir o w with
  | err e wa => rw [hm] at h; cases h
  | ok tmp wa =>
    rw [hm] at h
    dsimp only at h
    obtain ⟨htmp, _, _⟩ := makeTempDir_ok_shape hm
    subst htmp
    cases hr : Deno.realPath o.tempName wa with
    | err e wb => rw [hr] at h; cases h
    | ok path wb =>
      rw [hr] at h
      cases h
      dsimp only [FsResult.world]
      rw [hr]
      rfl

/-- Same statement for the synchronous path-only factory. -/
theorem pathSandboxSync_ok_shape {o : FsOracle} {w : World} {sb : PathVariant.Sandbox}
    {w1 : World} (h : PathVariant.sandboxSync o w = .ok sb w1) :
    (Deno.realPath o.tempName ((Deno.makeTempDir o w).world)).valOf = some sb.path := by
  have hsame : PathVariant.sandboxSync o w = PathVariant.sandbox o w := rfl
  rw [hsame] at h
  exact pathSandbox_ok_shape h

/-- C6 (amended): the cwd variant and the path-only variant store, in the
returned handle, exactly the value the `Deno.realPath` primitive produced
for the allocated temp directory — the canonical symlink-resolved form;
the managed variant instead stores only `path.resolve` of the allocated
name, which normalizes to an absolute path but performs no symlink
resolution. -/
theorem c6_canonical_stored :
    (∀ (o : FsOracle) (w : World) (sb : CwdVariant.Sandbox) (w1 : World),
        CwdVariant.sandbox o w = .ok sb w1 →
        (Deno.realPath o.tempName ((Deno.makeTempDir o w).world)).valOf = some sb.path) ∧
    (∀ (o : FsOracle) (w : World) (sb : CwdVariant.Sandbox) (w1 : World),
        CwdVariant.sandboxSync o w = .ok sb w1 →
        (Deno.realPath o.tempName ((Deno.makeTempDir o w).world)).valOf = some sb.path) ∧
    (∀ (o : FsOracle) (w : World) (sb : PathVariant.Sandbox) (w1 : World),
        PathVariant.sandbox o w = .ok sb w1 →
        (Deno.realPath o.tempName ((Deno.makeTempDir o w).world)).valOf = some sb.path) ∧
    (∀ (o : FsOracle) (w : World) (sb : PathVariant.Sandbox) (w1 : World),
        PathVariant.sandboxSync o w = .ok sb w1 →
        (Deno.realPath o.tempName ((Deno.makeTempDir o w).world)).valOf = some sb.path) ∧
    (∀ (o : FsOracle) (w : World) (sb : ManagedVariant.Sandbox) (w1 : World),
        ManagedVariant.sandbox o w = .ok sb w1 →
        sb.root = pathResolve w.cwd [o.tempName]) := by
  refine ⟨fun o w sb w1 h => (cwdSandbox_ok_shape h).2.2,
          fun o w sb w1 h => (cwdSandboxSync_ok_shape h).2.2,
          fun o w sb w1 h => pathSandbox_ok_shape h,
          fun o w sb w1 h => pathSandboxSync_ok_shape h,
          fun o w sb w1 h => (managedSandbox_ok_shape h).1⟩

/-- C6 (witness): in the symlinked-temp-root scenario the cwd variant
stores the canonical `/private/tmp/x`, while the concrete managed
construction stores the bare `path.resolve` result. -/
theorem c6_canonical_stored_witness :
    (Deno.realPath o6.tempName ((Deno.makeTempDir o6 w6).world)).valOf
      = some "/private/tmp/x" ∧
    sb9.root = pathResolve w0.cwd [oAll.tempName] :=
  ⟨c6_canonical_stored.1 o6 w6 ⟨"/private/tmp/x", "/home"⟩
     ((CwdVariant.sandbox o6 w6).world) rfl,
   c6_canonical_stored.2.2.2.2 oAll w0 sb9 ((ManagedVariant.sandbox oAll w0).world) rfl⟩

/-- C7: every managed convenience method that takes path arguments, when
given an absolute path in any of those positions, throws the
path-escape error before reaching any host primitive: the returned world
is the input world itself, so the call log and the filesystem are
untouched. -/
theorem c7_absolute_path_rejected (o : FsOracle) (sb : ManagedVariant.Sandbox) (w : World)
    (p x : String) (mode uid gid : Nat) (bytes : List Nat) (text : String)
    (hp : isAbsolute p = true) :
    sb.existsP p w = .err Err.pathEscape w ∧
    sb.chmod o p mode w = .err Err.pathEscape w ∧
    sb.chown o p uid gid w = .err Err.pathEscape w ∧
    sb.copyFile o p x w = .err Err.pathEscape w ∧
    sb.copyFile o x p w = .err Err.pathEscape w ∧
    sb.create o p w = .err Err.pathEscape w ∧
    sb.link o p x w = .err Err.pathEscape w ∧
    sb.link o x p w = .err Err.pathEscape w ∧
    sb.lstat p w = .err Err.pathEscape w ∧
    sb.mkdir o p w = .err Err.pathEscape w ∧
    sb.openF o p w = .err Err.pathEscape w ∧
    sb.readDir o p w = .err Err.pathEscape w ∧
    sb.readFile o p w = .err Err.pathEscape w ∧
    sb.readLink p w = .err Err.pathEscape w ∧
    sb.readTextFile o p w = .err Err.pathEscape w ∧
    sb.realPath p w = .err Err.pathEscape w ∧
    sb.remove o p w = .err Err.pathEscape w ∧
    sb.rename o p x w = .err Err.pathEscape w ∧
    sb.rename o x p w = .err Err.pathEscape w ∧
    sb.stat p w = .err Err.pathEscape w ∧
    sb.symlink o p x w = .err Err.pathEscape w ∧
    sb.symlink o x p w = .err Err.pathEscape w ∧
    sb.writeFile o p bytes w = .err Err.pathEscape w ∧
    sb.writeTextFile o p text w = .err Err.pathEscape w := by
  have hres : ManagedVariant.Sandbox.resolve sb [p] (Deno.cwd w) = .error Err.pathEscape :=
    resolve_single_abs sb (Deno.cwd w) p hp
  refine ⟨?_, ?_, ?_, ?_, ?_, ?_, ?_, ?_, ?_, ?_, ?_, ?_, ?_, ?_, ?_, ?_, ?_, ?_, ?_, ?_,
          ?_, ?_, ?_, ?_⟩
  · simp only [ManagedVariant.Sandbox.existsP, hres]
  · simp only [ManagedVariant.Sandbox.chmod, hres]
  · simp only [ManagedVariant.Sandbox.chown, hres]
  · simp only [ManagedVariant.Sandbox.copyFile, hres]
  · cases hEx : ManagedVariant.Sandbox.resolve sb [x] (Deno.cwd w) with
    | error e =>
      have he := resolve_error_eq sb (Deno.cwd w) [x] e hEx
      subst he
      simp only [ManagedVariant.Sandbox.copyFile, hEx]
    | ok rf =>
      simp only [ManagedVariant.Sandbox.copyFile, hEx, hres]
  · simp only [ManagedVariant.Sandbox.create, hres]
  · simp only [ManagedVariant.Sandbox.link, hres]
  · cases hEx : ManagedVariant.Sandbox.resolve sb [x] (Deno.cwd w) with
    | error e =>
      have he := resolve_error_eq sb (Deno.cwd w) [x] e hEx
      subst he
      simp only [ManagedVariant.Sandbox.link, hEx]
    | ok rf =>
      simp only [ManagedVariant.Sandbox.link, hEx, hres]
  · simp only [ManagedVariant.Sandbox.lstat, hres]
  · simp only [ManagedVariant.Sandbox.mkdir, hres]
  · simp only [ManagedVariant.Sandbox.openF, hres]
  · simp only [ManagedVariant.Sandbox.readDir, hres]
  · simp only [ManagedVariant.Sandbox.readFile, hres]
  · simp only [ManagedVariant.Sandbox.readLink, hres]
  · simp only [ManagedVariant.Sandbox.readTextFile, hres]
  · simp only [ManagedVariant.Sandbox.realPath, hres]
  · simp only [ManagedVariant.Sandbox.remove, hres]
  · simp only [ManagedVariant.Sandbox.rename, hres]
  · cases hEx : ManagedVariant.Sandbox.resolve sb [x] (Deno.cwd w) with
    | error e =>
      have he := resolve_error_eq sb (Deno.cwd w) [x] e hEx
      subst he
      simp only [ManagedVariant.Sandbox.rename, hEx]
    | ok rf =>
      simp only [ManagedVariant.Sandbox.rename, hEx, hres]
  · simp only [ManagedVariant.Sandbox.stat, hres]
  · simp only [ManagedVariant.Sandbox.symlink, hres]
  · cases hEx : ManagedVariant.Sandbox.resolve sb [x] (Deno.cwd w) with
    | error e =>
      have he := resolve_error_eq sb (Deno.cwd w) [x] e hEx
      subst he
      simp only [ManagedVariant.Sandbox.symlink, hEx]
    | ok rf =>
      simp only [ManagedVariant.Sandbox.symlink, hEx, hres]
  · simp only [ManagedVariant.Sandbox.writeFile, hres]
  · simp only [ManagedVariant.Sandbox.writeTextFile, hres]

/-- C7 (witness): a concrete absolute argument `/etc/passwd` makes the
managed `chmod` fail with the path-escape error, leaving the world
exactly as it was. -/
theorem c7_absolute_path_rejected_witness :
    ManagedVariant.Sandbox.chmod sb9 oAll "/etc/passwd" 448 w9a
      = .err Err.pathEscape w9a :=
  (c7_absolute_path_rejected oAll sb9 w9a "/etc/passwd" "rel" 448 0 0 [] "" rfl).2.1

/-- C8: disposal never raises when the sandbox directory is missing and a
second disposal after a first also returns normally: the path-only
disposers return normally from any world at all; the cwd-restoring
disposers return normally from any world — in particular from a world
with no entry at the sandbox path and from the world a previous disposal
left — provided the `chdir` back succeeds. -/
theorem c8_dispose_never_raises (o : FsOracle) (w : World) :
    (∀ sb : PathVariant.Sandbox,
        (PathVariant.dispose o sb w).isOk = true ∧
        (PathVariant.dispose o sb ((PathVariant.dispose o sb w).world)).isOk = true ∧
        (PathVariant.disposeSync o sb w).isOk = true) ∧
    (∀ sb : CwdVariant.Sandbox, o.chdirOk sb.origin = true →
        (CwdVariant.disposeAsync o sb w).isOk = true ∧
        (CwdVariant.disposeSync o sb w).isOk = true ∧
        (CwdVariant.disposeSync o sb ((CwdVariant.disposeSync o sb w).world)).isOk = true) ∧
    (∀ sb : ManagedVariant.Sandbox, o.chdirOk sb.previousCwd = true →
        (ManagedVariant.Sandbox.dispose sb o w).isOk = true ∧
        (ManagedVariant.Sandbox.dispose sb o
           ((ManagedVariant.Sandbox.dispose sb o w).world)).isOk = true) := by
  refine ⟨fun sb => ⟨pathDispose_isOk o sb w, pathDispose_isOk o sb _,
                     pathDisposeSync_isOk o sb w⟩,
          fun sb h => ⟨?_, ?_, ?_⟩, fun sb h => ⟨?_, ?_⟩⟩
  · rw [cwdDisposeAsync_isOk_iff]
    exact h
  · rw [cwdDisposeSync_isOk_iff]
    exact h
  · rw [cwdDisposeSync_isOk_iff]
    exact h
  · rw [managedDispose_isOk_iff]
    exact h
  · rw [managedDispose_isOk_iff]
    exact h

/-- C8 (witness): in the starting world, which has no `/tmp/s` entry at
all, both the cwd-variant and path-only disposers of a handle for
`/tmp/s` return normally. -/
theorem c8_dispose_never_raises_witness :
    w0.entry "/tmp/s" = none ∧
    (CwdVariant.disposeSync oAll sbC w0).isOk = true ∧
    (PathVariant.dispose oAll ⟨"/tmp/s"⟩ w0).isOk = true :=
  ⟨rfl, ((c8_dispose_never_raises oAll w0).2.1 sbC rfl).2.1,
   ((c8_dispose_never_raises oAll w0).1 ⟨"/tmp/s"⟩).1⟩

/-- C10 (amended): for every absolute argument `p`, the path-only
`resolve` does not throw and returns `path.resolve(p)` — the
normalization of `p`, ignoring the sandbox root entirely, equal to `p`
itself whenever `p` is already in normal form — and the result is an
absolute path that may lie entirely outside the sandbox; no absolute-path
rejection is performed. -/
theorem c10_absolute_wins (sb : PathVariant.Sandbox) (cwd p : String)
    (hp : isAbsolute p = true) :
    PathVariant.Sandbox.resolve sb cwd p = pathResolve cwd [p] ∧
    isAbsolute (PathVariant.Sandbox.resolve sb cwd p) = true := by
  have h1 : PathVariant.Sandbox.resolve sb cwd p = pathResolve cwd [p] := by
    show pathResolve cwd ([sb.path] ++ [p]) = pathResolve cwd [p]
    exact pathResolve_absLast cwd [sb.path] p hp
  refine ⟨h1, ?_⟩
  rw [h1]
  exact pathResolve_single_abs cwd p hp

/-- C10 (witness): the normalized absolute path `/etc/passwd`, far
outside the sandbox root `/tmp/s`, is returned as-is. -/
theorem c10_absolute_wins_witness :
    isAbsolute "/etc/passwd" = true ∧
    PathVariant.Sandbox.resolve ⟨"/tmp/s"⟩ "/home" "/etc/passwd"
      = pathResolve "/home" ["/etc/passwd"] ∧
    pathResolve "/home" ["/etc/passwd"] = "/etc/passwd" :=
  ⟨rfl, (c10_absolute_wins ⟨"/tmp/s"⟩ "/home" "/etc/passwd" rfl).1, rfl⟩

end SandboxSpec
